import Mathlib

/-!
Verification of the shape-resolution and paint-compositing engine of the
blitz renderer (packages/blitz-paint/src/render.rs), against its
natural-language specification.

The development shallowly embeds the Rust source:

* exact rational arithmetic (`ℚ`) models `f64` wherever the source only
  adds, subtracts, multiplies, divides, compares, and takes `min`/`max`
  (those operations are modelled exactly; `f64` rounding is not modelled);
* `ℝ` with `Real.sqrt` / `Real.arccos` / `Real.cos` / `Real.sin` models
  `f64` in the square-root and trigonometric code (the arc converter and
  the polygon-point expansion);
* `f64::INFINITY`, used only as the start of a minimum fold, is modelled
  by `⊤ : WithTop ℚ`;
* stateful code (the per-frame clip-path cache, the `BezPath` builder) is
  passed through explicitly as functional state.

Definitions keep the source's names and structure; where a definition
models behavior whose code is not part of the provided sources (the
external `cssparser` tokenizer, the `kurbo_css` box-path constructors,
kurbo's `Arc::to_path`), its doc comment says so.
-/

namespace BlitzPaint

/-! ## Basic geometry (kurbo `Point`, `Rect`, exact-arithmetic fragment) -/

/-- kurbo `Point` (an `x`/`y` pair of `f64`), in the exact-arithmetic fragment. -/
@[ext] structure Point where
  x : ℚ
  y : ℚ
  deriving DecidableEq, Repr

/-- kurbo `Rect` (`x0`, `y0`, `x1`, `y1` of `f64`), in the exact-arithmetic fragment. -/
@[ext] structure Rect where
  x0 : ℚ
  y0 : ℚ
  x1 : ℚ
  y1 : ℚ
  deriving DecidableEq, Repr

/-- kurbo `Rect::width`. -/
def Rect.width (r : Rect) : ℚ := r.x1 - r.x0

/-- kurbo `Rect::height`. -/
def Rect.height (r : Rect) : ℚ := r.y1 - r.y0

/-- kurbo `Rect::origin`. -/
def Rect.origin (r : Rect) : Point := ⟨r.x0, r.y0⟩

/-! ## Length-percentage resolution (render.rs lines 1479-1496) -/

/-- Stylo's `Unpacked` view of a computed `LengthPercentage`: a pixel length,
a percentage, or a calc node.  A calc node is an opaque Stylo value whose
`resolve` method maps the axis length to pixels; it is modelled as that
function. -/
inductive Unpacked where
  | length (px : ℚ)
  | percentage (pct : ℚ)
  | calc (resolve : ℚ → ℚ)

/-- `resolve_unpacked_value` (render.rs lines 1490-1496). -/
def resolve_unpacked_value (unpacked : Unpacked) (axis : ℚ) : ℚ :=
  match unpacked with
  | .length len => len
  | .percentage pct => axis * pct
  | .calc resolve => resolve axis

/-- `resolve_length_percentage_value` (render.rs lines 1479-1481); `unpack` is
the identity in this model. -/
def resolve_length_percentage_value (value : Unpacked) (axis : ℚ) : ℚ :=
  resolve_unpacked_value value axis

/-- `resolve_non_negative_length_percentage_value` (render.rs lines 1483-1488);
the `NonNegative` wrapper is transparent. -/
def resolve_non_negative_length_percentage_value (value : Unpacked) (axis : ℚ) : ℚ :=
  resolve_unpacked_value value axis

/-! ## Shape radius resolution (render.rs lines 1518-1547) -/

/-- Stylo `ShapeRadius<NonNegativeLengthPercentage>`. -/
inductive ShapeRadius where
  | length (value : Unpacked)
  | closestSide
  | farthestSide

/-- `resolve_shape_radius` (render.rs lines 1518-1547).  The `ClosestSide` arm
folds `f64::min` starting from `f64::INFINITY`; infinity is modelled by
`⊤ : WithTop ℚ` and the (always finite) result is extracted with `untop' 0`.
The `FarthestSide` arm folds `f64::max` starting from `0.0`, exactly as the
source does. -/
def resolve_shape_radius (radius : ShapeRadius) (center : Point) (reference_rect : Rect)
    (axis : ℚ) : ℚ :=
  match radius with
  | .length length => resolve_non_negative_length_percentage_value length axis
  | .closestSide =>
      let distances : List ℚ :=
        [center.x - reference_rect.x0, reference_rect.x1 - center.x,
         center.y - reference_rect.y0, reference_rect.y1 - center.y]
      ((distances.map (fun d => (d : WithTop ℚ))).foldl min ⊤).untop' 0
  | .farthestSide =>
      let distances : List ℚ :=
        [center.x - reference_rect.x0, reference_rect.x1 - center.x,
         center.y - reference_rect.y0, reference_rect.y1 - center.y]
      distances.foldl max 0

/-! ## Rect-type basic shapes (the `GenericBasicShape::Rect` arm of
`basic_shape_to_path`, render.rs lines 741-781) -/

/-- Stylo `InsetRect`: the four edge offsets and the four `round` corner
radii (only the horizontal widths of the radii are read by the source). -/
structure InsetRectShape where
  top : Unpacked
  right : Unpacked
  bottom : Unpacked
  left : Unpacked
  round_top_left : Unpacked
  round_top_right : Unpacked
  round_bottom_right : Unpacked
  round_bottom_left : Unpacked

/-- The arguments the source passes to `frame.rect_path` at render.rs line 775:
sorted bounds plus per-corner radii. -/
structure RoundedRectSpec where
  x0 : ℚ
  y0 : ℚ
  x1 : ℚ
  y1 : ℚ
  r_top_left : ℚ
  r_top_right : ℚ
  r_bottom_right : ℚ
  r_bottom_left : ℚ

/-- The `GenericBasicShape::Rect(rect)` arm of `basic_shape_to_path`
(render.rs lines 741-781): resolve the four edge offsets, apply the
shape-margin expansion, sort the bounds, resolve the corner radii. -/
def basic_shape_rect_arm (rect : InsetRectShape) (reference_rect : Rect)
    (shape_margin : ℚ) : RoundedRectSpec :=
  let origin_x := reference_rect.origin.x
  let origin_y := reference_rect.origin.y
  let box_width := reference_rect.width
  let box_height := reference_rect.height
  let top := resolve_length_percentage_value rect.top box_height
  let right := resolve_length_percentage_value rect.right box_width
  let bottom := resolve_length_percentage_value rect.bottom box_height
  let left := resolve_length_percentage_value rect.left box_width
  let x0_raw := origin_x + left - shape_margin
  let y0_raw := origin_y + top - shape_margin
  let x1_raw := origin_x + box_width - right + shape_margin
  let y1_raw := origin_y + box_height - bottom + shape_margin
  { x0 := min x0_raw x1_raw
    y0 := min y0_raw y1_raw
    x1 := max x0_raw x1_raw
    y1 := max y0_raw y1_raw
    r_top_left := resolve_non_negative_length_percentage_value rect.round_top_left box_width
    r_top_right := resolve_non_negative_length_percentage_value rect.round_top_right box_width
    r_bottom_right := resolve_non_negative_length_percentage_value rect.round_bottom_right box_width
    r_bottom_left := resolve_non_negative_length_percentage_value rect.round_bottom_left box_width }

/-! ## Shape-margin parsing (render.rs lines 1549-1620)

Strings are modelled as `List Char` so that every operation evaluates by
kernel reduction.  The splitting / trimming / case-folding mirror the
`str` methods the source calls. -/

/-- CSS default value for the shape-margin property (render.rs line 1550). -/
def DEFAULT_SHAPE_MARGIN : ℚ := 0

/-- Rust `str::split(sep)` over a character list: `"a;b" ↦ ["a", "b"]`,
with an empty piece for leading/trailing/adjacent separators. -/
def split_on_char (sep : Char) : List Char → List (List Char)
  | [] => [[]]
  | c :: rest =>
      if c = sep then [] :: split_on_char sep rest
      else
        match split_on_char sep rest with
        | [] => [[c]]
        | group :: groups => (c :: group) :: groups

/-- Rust `str::splitn(2, ':')`: the piece before the first colon, and
(when a colon exists) everything after it. -/
def splitn2_colon (cs : List Char) : List Char × Option (List Char) :=
  let name := cs.takeWhile (fun c => !(c = ':'))
  match cs.dropWhile (fun c => !(c = ':')) with
  | [] => (name, none)
  | _ :: value => (name, some value)

/-- Rust `str::trim`. -/
def trim_chars (cs : List Char) : List Char :=
  ((cs.dropWhile Char.isWhitespace).reverse.dropWhile Char.isWhitespace).reverse

/-- Rust `str::eq_ignore_ascii_case` (ASCII case folding suffices here). -/
def eq_ignore_ascii_case (a b : List Char) : Bool :=
  a.map Char.toLower == b.map Char.toLower

/-- A `cssparser` token, restricted to the shapes `parse_shape_margin_value`
distinguishes: `Percentage` (carrying `unit_value`, the fraction, so `10%`
carries `1/10`), `Dimension` (numeric value plus unit), `Number`, and a
catch-all for every other token kind. -/
inductive Token where
  | percentage (unit_value : ℚ)
  | dimension (value : ℚ) (unit : List Char)
  | number (value : ℚ)
  | other
  deriving DecidableEq

/-- Digit run to a natural number. -/
def digits_to_nat (ds : List Char) : ℕ :=
  ds.foldl (fun acc c => acc * 10 + (c.toNat - 48)) 0

/-- Modelled from the spec: the numeric part of CSS tokenization (the
external `cssparser` crate, not part of the provided sources).  Reads an
optional sign, an integer part and an optional fractional part; yields the
value and the unconsumed characters, or nothing when no digits are present. -/
def read_number (cs : List Char) : Option (ℚ × List Char) :=
  let signed : ℚ × List Char :=
    match cs with
    | '-' :: rest => (-1, rest)
    | '+' :: rest => (1, rest)
    | _ => (1, cs)
  let sign := signed.1
  let cs1 := signed.2
  let int_digits := cs1.takeWhile Char.isDigit
  let cs2 := cs1.dropWhile Char.isDigit
  let has_frac : Bool :=
    match cs2 with
    | '.' :: c :: _ => c.isDigit
    | _ => false
  if has_frac then
    let cs3 := cs2.drop 1
    let frac_digits := cs3.takeWhile Char.isDigit
    let cs4 := cs3.dropWhile Char.isDigit
    some (sign * ((digits_to_nat int_digits : ℚ)
        + (digits_to_nat frac_digits : ℚ) / (10 ^ frac_digits.length)), cs4)
  else if int_digits.isEmpty then none
  else some (sign * (digits_to_nat int_digits : ℚ), cs2)

/-- Modelled from the spec: `Parser::next` of the external `cssparser`
crate, restricted to the first token of the input.  Leading whitespace is
skipped (as `Parser::next` does); an empty input yields no token (the
`Err` the source's `_` arm absorbs); a numeric token becomes `Percentage`,
`Dimension`, or `Number` according to what follows the number; any other
input is some non-numeric token. -/
def tokenize1 (s : List Char) : Option Token :=
  match s.dropWhile Char.isWhitespace with
  | [] => none
  | cs =>
      match read_number cs with
      | some (v, rest) =>
          match rest with
          | '%' :: _ => some (Token.percentage (v / 100))
          | c :: _ =>
              if c.isAlpha then some (Token.dimension v (rest.takeWhile Char.isAlpha))
              else some (Token.number v)
          | [] => some (Token.number v)
      | none => some Token.other

/-- `parse_shape_margin_value` (render.rs lines 1606-1620): percentage
tokens resolve against the reference rectangle's width, `px` dimensions and
bare numbers are pixels, anything else is no value; the result is clamped
at zero. -/
def parse_shape_margin_value (raw_value : List Char) (reference_rect : Rect) : Option ℚ :=
  let px_value : Option ℚ :=
    match tokenize1 raw_value with
    | some (Token.percentage unit_value) => some (reference_rect.width * unit_value)
    | some (Token.dimension value unit) =>
        if eq_ignore_ascii_case unit ['p', 'x'] then some value else none
    | some (Token.number value) => some value
    | _ => none
  px_value.map (fun px => max px 0)

/-- `resolve_shape_margin_for_node` (render.rs lines 1583-1604): scan the
element's literal inline `style` attribute (absent attribute ⇒ default),
split declarations on `;`, split each on the first `:`, trim, match the
name `shape-margin` ASCII-case-insensitively, and parse the value, falling
back to the CSS default 0. -/
def resolve_shape_margin_for_node (style_attr : Option (List Char))
    (reference_rect : Rect) : ℚ :=
  match style_attr with
  | none => DEFAULT_SHAPE_MARGIN
  | some attr =>
      let margin_value : Option (List Char) :=
        (split_on_char ';' attr).findSome? (fun decl =>
          match splitn2_colon decl with
          | (_, none) => none
          | (name, some value) =>
              if eq_ignore_ascii_case (trim_chars name)
                  ['s', 'h', 'a', 'p', 'e', '-', 'm', 'a', 'r', 'g', 'i', 'n'] then
                some (trim_chars value)
              else none)
      match margin_value with
      | none => DEFAULT_SHAPE_MARGIN
      | some raw_value =>
          (parse_shape_margin_value raw_value reference_rect).getD DEFAULT_SHAPE_MARGIN

/-! ## Border edge rendering (render.rs lines 1274-1356) -/

/-- Stylo `BorderStyle`. -/
inductive BorderStyle where
  | none
  | hidden
  | dotted
  | dashed
  | solid
  | double
  | groove
  | ridge
  | inset
  | outset
  deriving DecidableEq

/-- kurbo `Cap`. -/
inductive Cap where
  | butt
  | round
  | square
  deriving DecidableEq

/-- The fields of kurbo `Stroke` the source sets at render.rs lines
1335-1342 (`width`, `dash_pattern`, `dash_offset`, `start_cap`,
`end_cap`); the remaining fields keep `Stroke::default()` and are not
read by any claim. -/
structure Stroke where
  width : ℚ
  dash_pattern : List ℚ
  dash_offset : ℚ
  start_cap : Cap
  end_cap : Cap
  deriving DecidableEq

/-- A scene-sink operation emitted for one border edge: a dashed/dotted
stroke or a solid fill of the edge's path (`π` is the path type). -/
inductive DrawOp (π : Type) where
  | strokeOp (stroke : Stroke) (path : π)
  | fillOp (path : π)
  deriving DecidableEq

/-- `draw_border_edge` (render.rs lines 1274-1356), from the point where
the edge's resolved color alpha, style, width, and path are in hand (those
are read from the external style engine and the box-model frame).  Returns
the operation sent to the scene sink, or nothing when the edge is skipped. -/
def draw_border_edge {π : Type} (border_style : BorderStyle) (alpha : ℚ)
    (border_width : ℚ) (path : π) : Option (DrawOp π) :=
  if alpha = 0 then none
  else
    match border_style with
    | .none | .hidden => none
    | .dotted | .dashed =>
        let dash_gap_cap : ℚ × ℚ × Cap :=
          if border_style = .dotted then
            let dot_size := max border_width 1
            (dot_size, dot_size, Cap.round)
          else
            let dash_size := border_width * 3
            (dash_size, dash_size, Cap.butt)
        let dash_length := dash_gap_cap.1
        let gap_length := dash_gap_cap.2.1
        let cap := dash_gap_cap.2.2
        some (DrawOp.strokeOp
          { width := border_width
            dash_pattern := [dash_length, gap_length]
            dash_offset := 0
            start_cap := cap
            end_cap := cap } path)
    | .solid | .double | .groove | .ridge | .inset | .outset =>
        some (DrawOp.fillOp path)

/-! ## Path builder (`commands_to_bez_path`, render.rs lines 141-291,
and its helpers at lines 1711-1743) -/

/-- kurbo `PathEl`. -/
inductive PathEl where
  | moveTo (p : Point)
  | lineTo (p : Point)
  | quadTo (c p : Point)
  | curveTo (c1 c2 p : Point)
  | closePath
  deriving DecidableEq

/-- Stylo `ByTo` (absolute or relative coordinates). -/
inductive ByTo where
  | abs
  | rel
  deriving DecidableEq

/-- `ByTo::is_abs`. -/
def ByTo.is_abs : ByTo → Bool
  | .abs => true
  | .rel => false

/-- Stylo `CoordinatePair<f32>`. -/
structure CoordinatePair where
  x : ℚ
  y : ℚ
  deriving DecidableEq

/-- Stylo `CommandEndPoint<f32>`: an absolute position or a relative offset. -/
inductive CommandEndPoint where
  | toPosition (horizontal vertical : ℚ)
  | byCoordinate (coord : CoordinatePair)
  deriving DecidableEq

/-- Stylo `GenericShapeCommand<f32, f32>`. -/
inductive ShapeCommand where
  | move (point : CommandEndPoint)
  | line (point : CommandEndPoint)
  | hline (by_to : ByTo) (x : ℚ)
  | vline (by_to : ByTo) (y : ℚ)
  | arc (point : CommandEndPoint) (radii : CoordinatePair)
      (arc_sweep : Bool) (arc_size : Bool) (rotate : ℚ)
  | quadCurve (point : CommandEndPoint) (control1 : CoordinatePair)
  | cubicCurve (point : CommandEndPoint) (control1 control2 : CoordinatePair)
  | smoothQuad (point : CommandEndPoint)
  | smoothCubic (point : CommandEndPoint) (control2 : CoordinatePair)
  | close
  deriving DecidableEq

/-- `coordinate_pair_to_point` (render.rs lines 1711-1716). -/
def coordinate_pair_to_point (pair : CoordinatePair) : Point :=
  ⟨pair.x, pair.y⟩

/-- `resolve_endpoint_absolute` (render.rs lines 1718-1729). -/
def resolve_endpoint_absolute (point : CommandEndPoint) (current : Point) : Point :=
  match point with
  | .toPosition horizontal vertical => ⟨horizontal, vertical⟩
  | .byCoordinate coord => ⟨current.x + coord.x, current.y + coord.y⟩

/-- `ensure_path_started` (render.rs lines 1731-1736); the mutated
`path` / `has_started` pair is returned. -/
def ensure_path_started (path : List PathEl) (has_started : Bool) (current : Point) :
    List PathEl × Bool :=
  if !has_started then (path ++ [PathEl.moveTo current], true)
  else (path, has_started)

/-- `reflect_point` (render.rs lines 1738-1743). -/
def reflect_point (control center : Point) : Point :=
  ⟨2 * center.x - control.x, 2 * center.y - control.y⟩

/-- The mutable locals of `commands_to_bez_path` (render.rs lines 142-147). -/
structure PathBuilderState where
  path : List PathEl
  current_point : Point
  subpath_start : Point
  has_started : Bool
  last_quad_ctrl : Option Point
  last_cubic_ctrl : Option Point

/-- The elements `stylo_to_kurbo_arc(current, target, radii, sweep, size,
rotate).to_path(1e-3)` contributes for one `Arc` command.  kurbo's
`Arc::to_path` is external library code, so the path-builder development is
parametric in it (`ArcToPath` is its type: current point, target, radii,
sweep flag, large-arc flag, rotation). -/
def ArcToPath : Type :=
  Point → Point → CoordinatePair → Bool → Bool → ℚ → List PathEl

/-- `PathEl::MoveTo` discriminator (the `Arc` loop at render.rs lines
224-229 skips exactly these elements). -/
def PathEl.isMoveTo : PathEl → Bool
  | .moveTo _ => true
  | _ => false

/-- One iteration of the command loop of `commands_to_bez_path`
(render.rs lines 149-288). -/
def command_step (arc_to_path : ArcToPath) (st : PathBuilderState)
    (cmd : ShapeCommand) : PathBuilderState :=
  match cmd with
  | .move point =>
      let target := resolve_endpoint_absolute point st.current_point
      { path := st.path ++ [PathEl.moveTo target]
        current_point := target
        subpath_start := target
        has_started := true
        last_quad_ctrl := none
        last_cubic_ctrl := none }
  | .line point =>
      let target := resolve_endpoint_absolute point st.current_point
      let started := ensure_path_started st.path st.has_started st.current_point
      { path := started.1 ++ [PathEl.lineTo target]
        current_point := target
        subpath_start := st.subpath_start
        has_started := started.2
        last_quad_ctrl := none
        last_cubic_ctrl := none }
  | .hline by_to x =>
      let target : Point :=
        if by_to.is_abs then ⟨x, st.current_point.y⟩
        else ⟨st.current_point.x + x, st.current_point.y⟩
      let started := ensure_path_started st.path st.has_started st.current_point
      { path := started.1 ++ [PathEl.lineTo target]
        current_point := target
        subpath_start := st.subpath_start
        has_started := started.2
        last_quad_ctrl := none
        last_cubic_ctrl := none }
  | .vline by_to y =>
      let target : Point :=
        if by_to.is_abs then ⟨st.current_point.x, y⟩
        else ⟨st.current_point.x, st.current_point.y + y⟩
      let started := ensure_path_started st.path st.has_started st.current_point
      { path := started.1 ++ [PathEl.lineTo target]
        current_point := target
        subpath_start := st.subpath_start
        has_started := started.2
        last_quad_ctrl := none
        last_cubic_ctrl := none }
  | .arc point radii arc_sweep arc_size rotate =>
      let target := resolve_endpoint_absolute point st.current_point
      let started := ensure_path_started st.path st.has_started st.current_point
      let arc_els := (arc_to_path st.current_point target radii arc_sweep arc_size
        rotate).filter (fun el => ! el.isMoveTo)
      { path := started.1 ++ arc_els
        current_point := target
        subpath_start := st.subpath_start
        has_started := started.2
        last_quad_ctrl := none
        last_cubic_ctrl := none }
  | .quadCurve point control1 =>
      let control := coordinate_pair_to_point control1
      let target := resolve_endpoint_absolute point st.current_point
      let started := ensure_path_started st.path st.has_started st.current_point
      { path := started.1 ++ [PathEl.quadTo control target]
        current_point := target
        subpath_start := st.subpath_start
        has_started := started.2
        last_quad_ctrl := some control
        last_cubic_ctrl := none }
  | .cubicCurve point control1 control2 =>
      let control_one := coordinate_pair_to_point control1
      let control_two := coordinate_pair_to_point control2
      let target := resolve_endpoint_absolute point st.current_point
      let started := ensure_path_started st.path st.has_started st.current_point
      { path := started.1 ++ [PathEl.curveTo control_one control_two target]
        current_point := target
        subpath_start := st.subpath_start
        has_started := started.2
        last_quad_ctrl := none
        last_cubic_ctrl := some control_two }
  | .smoothQuad point =>
      let control := (st.last_quad_ctrl.map
        (fun ctrl => reflect_point ctrl st.current_point)).getD st.current_point
      let target := resolve_endpoint_absolute point st.current_point
      let started := ensure_path_started st.path st.has_started st.current_point
      { path := started.1 ++ [PathEl.quadTo control target]
        current_point := target
        subpath_start := st.subpath_start
        has_started := started.2
        last_quad_ctrl := some control
        last_cubic_ctrl := none }
  | .smoothCubic point control2 =>
      let control_one := (st.last_cubic_ctrl.map
        (fun ctrl => reflect_point ctrl st.current_point)).getD st.current_point
      let control_two := coordinate_pair_to_point control2
      let target := resolve_endpoint_absolute point st.current_point
      let started := ensure_path_started st.path st.has_started st.current_point
      { path := started.1 ++ [PathEl.curveTo control_one control_two target]
        current_point := target
        subpath_start := st.subpath_start
        has_started := started.2
        last_quad_ctrl := none
        last_cubic_ctrl := some control_two }
  | .close =>
      let started := ensure_path_started st.path st.has_started st.current_point
      { path := started.1 ++ [PathEl.closePath]
        current_point := st.subpath_start
        subpath_start := st.subpath_start
        has_started := started.2
        last_quad_ctrl := none
        last_cubic_ctrl := none }

/-- `commands_to_bez_path` (render.rs lines 141-291): fold the command loop
over the initial state (empty path, current point and subpath start at the
origin, not started, no control points). -/
def commands_to_bez_path (arc_to_path : ArcToPath) (cmds : List ShapeCommand) :
    List PathEl :=
  (cmds.foldl (command_step arc_to_path) ⟨[], ⟨0, 0⟩, ⟨0, 0⟩, false, none, none⟩).path

/-! ## Real-valued geometry: the arc converter (render.rs lines 60-139)
and the polygon-point expansion (render.rs lines 1552-1575).

These functions take square roots and inverse cosines, so they are
embedded over `ℝ` (the transcendental functions make the definitions
noncomputable; concrete evaluations are carried out by proof). -/

/-- kurbo `Point` in the real-valued fragment. -/
@[ext] structure PointR where
  x : ℝ
  y : ℝ

/-- kurbo `Vec2` in the real-valued fragment. -/
@[ext] structure Vec2R where
  x : ℝ
  y : ℝ

/-- kurbo `Vec2::length` (`hypot`). -/
noncomputable def Vec2R.length (v : Vec2R) : ℝ :=
  Real.sqrt (v.x * v.x + v.y * v.y)

/-- `f64::signum` restricted to non-NaN input; `signum` of (positive) zero
is `1.0`, which the `if` mirrors (`ℝ` has no negative zero or NaN). -/
noncomputable def signum_f64 (x : ℝ) : ℝ :=
  if x < 0 then -1 else 1

/-- `angle` (render.rs lines 136-139): the signed angle between two
vectors, computed as `signum(cross) * acos(dot / (|u| * |v|))`.
`f64::acos` returns radians. -/
noncomputable def angle (u v : Vec2R) : ℝ :=
  let sign := signum_f64 (u.x * v.y - u.y * v.x)
  sign * Real.arccos ((u.x * v.x + u.y * v.y) / (u.length * v.length))

/-- The sweep-angle normalization the source applies at render.rs lines
119-125: with a clockwise sweep and a positive naive angle it subtracts
360, with a counter-clockwise sweep and a negative naive angle it adds
360, and otherwise keeps the naive angle. -/
noncomputable def normalize_del_theta (sweep : Bool) (angle_degree : ℝ) : ℝ :=
  if sweep = true ∧ 0 < angle_degree then angle_degree - 360
  else if sweep = false ∧ angle_degree < 0 then angle_degree + 360
  else angle_degree

/-- The normalization rule as the specification states it (spec §4.1 /
claim C2, matching step 4 of the SVG endpoint-to-center conversion the
source's doc comment cites): clockwise sweep with negative naive angle
adds 360°, counter-clockwise sweep with positive naive angle subtracts
360°, otherwise unchanged.  Stated for comparison with
`normalize_del_theta`. -/
noncomputable def spec_normalize_del_theta (sweep : Bool) (angle_degree : ℝ) : ℝ :=
  if sweep = true ∧ angle_degree < 0 then angle_degree + 360
  else if sweep = false ∧ 0 < angle_degree then angle_degree - 360
  else angle_degree

/-- kurbo `Arc` (center parametrization), the return type of
`stylo_to_kurbo_arc`. -/
structure KurboArc where
  center : PointR
  radii : Vec2R
  start_angle : ℝ
  sweep_angle : ℝ
  x_rotation : ℝ

/-- `stylo_to_kurbo_arc` (render.rs lines 73-134), the endpoint-to-center
arc conversion.  Every arithmetic step is transcribed from the source,
including the `y` component of the second endpoint vector at line 116,
which the source writes as `-y1_prime - cy_prime / ry` (dividing only
`cy_prime` by `ry`).  `arc_sweep` is `true` for `ArcSweep::Cw`,
`arc_size` is `true` for `ArcSize::Large`. -/
noncomputable def stylo_to_kurbo_arc (start stop : PointR) (radii : Vec2R)
    (arc_sweep : Bool) (arc_size : Bool) (x_axis_rotation : ℝ) : KurboArc :=
  let rx := radii.x
  let ry := radii.y
  let sweep := arc_sweep
  let large_arc := arc_size
  let phi := x_axis_rotation * (Real.pi / 180)
  let half_del_x := (start.x - stop.x) / 2
  let half_del_y := (start.y - stop.y) / 2
  let x1_prime := Real.cos phi * half_del_x + Real.sin phi * half_del_y
  let y1_prime := -Real.sin phi * half_del_x + Real.cos phi * half_del_y
  let coeff0 := Real.sqrt (((rx * ry) ^ 2 - (rx * y1_prime) ^ 2 - (ry * x1_prime) ^ 2)
    / ((rx * y1_prime) ^ 2 + (ry * x1_prime) ^ 2))
  let coeff := if sweep = large_arc then -coeff0 else coeff0
  let cx_prime := coeff * rx * y1_prime / ry
  let cy_prime := -coeff * ry * x1_prime / rx
  let mean_x := (start.x + stop.x) / 2
  let mean_y := (start.y + stop.y) / 2
  let cx := Real.cos phi * cx_prime - Real.sin phi * cy_prime + mean_x
  let cy := Real.sin phi * cx_prime + Real.cos phi * cy_prime + mean_y
  let u : Vec2R := ⟨1, 0⟩
  let v : Vec2R := ⟨(x1_prime - cx_prime) / rx, (y1_prime - cy_prime) / ry⟩
  let theta1 := angle u v
  let u2 := v
  let v2 : Vec2R := ⟨(-x1_prime - cx_prime) / rx, -y1_prime - cy_prime / ry⟩
  let angle_degree := angle u2 v2
  let del_theta := normalize_del_theta sweep angle_degree
  { center := ⟨cx, cy⟩
    radii := ⟨rx, ry⟩
    start_angle := theta1
    sweep_angle := del_theta
    x_rotation := x_axis_rotation }

/-- `expand_polygon_point` (render.rs lines 1557-1575). -/
noncomputable def expand_polygon_point (point bounding_box_center : PointR)
    (margin : ℝ) : PointR :=
  if margin ≤ 0 then point
  else
    let dx := point.x - bounding_box_center.x
    let dy := point.y - bounding_box_center.y
    let dist := Real.sqrt (dx * dx + dy * dy)
    if 0 < dist then
      let scale := (dist + margin) / dist
      ⟨bounding_box_center.x + dx * scale, bounding_box_center.y + dy * scale⟩
    else point

/-- Euclidean distance between two points, the measure the claims about
`expand_polygon_point` are stated in. -/
noncomputable def euclid_dist (a b : PointR) : ℝ :=
  Real.sqrt ((a.x - b.x) * (a.x - b.x) + (a.y - b.y) * (a.y - b.y))

/-! ## Clip-path resolution and the per-frame cache (render.rs lines
293-311 and 575-692).

The resolver's control flow — cache lookup, visited-set cycle guard,
dispatch on the clip-path variant, cache insertion — is transcribed from
the source.  The geometry it invokes is abstracted behind parameters:
`box_path` stands for `clip_path_for_geometry_box` (whose `kurbo_css`
box-path constructors are repository code outside the provided sources)
and `shape_to_path` for `basic_shape_to_path`.  The claims settled here
are independent of the geometry produced, so the theorems quantify over
these parameters.  `ι` is the type of fragment identifiers (strings in
the source), `σ` the type of basic-shape values, `π` the contour
(`Rc<BezPath>`) type. -/

/-- Stylo `ShapeGeometryBox` (`ShapeBox` keywords plus the SVG-only and
element-dependent variants). -/
inductive ShapeGeometryBox where
  | borderBox
  | paddingBox
  | contentBox
  | marginBox
  | fillBox
  | strokeBox
  | viewBox
  | elementDependent
  deriving DecidableEq

/-- The four nested rectangles of a `kurbo_css` `CssBox` that the
clip-path resolver reads (the source's `CssBox` also carries corner radii
and widths, which the resolver does not touch). -/
structure CssBoxQ where
  margin_box : Rect
  border_box : Rect
  padding_box : Rect
  content_box : Rect

/-- `reference_rect_for_geometry_box` (render.rs lines 675-692): SVG-only
and element-dependent boxes fall back to the border box. -/
def reference_rect_for_geometry_box (frame : CssBoxQ)
    (geometry_box : ShapeGeometryBox) : Rect :=
  match geometry_box with
  | .borderBox => frame.border_box
  | .paddingBox => frame.padding_box
  | .contentBox => frame.content_box
  | .marginBox => frame.margin_box
  | .fillBox | .strokeBox | .viewBox | .elementDependent => frame.border_box

/-- Stylo `GenericClipPath`, as dispatched at render.rs lines 605-616: the
`Url` payload is reduced to its fragment (`url.url()` / `.fragment()` both
return options; a missing resolved url or fragment is `Option.none` here,
both making `clip_path_from_url` return no clip). -/
inductive ClipPath (ι σ : Type) where
  | none
  | url (fragment : Option ι)
  | box (geometry_box : ShapeGeometryBox)
  | shape (shape : σ) (geometry_box : ShapeGeometryBox)

/-- The per-node data the resolver reads: the node's computed `clip-path`,
whether `primary_styles()` is present, the literal inline `style`
attribute, and the node's `create_css_rect(styles, final_layout, 1.0)`
frame (styles and layout are external per-node inputs, so their derived
frame is stored with the node). -/
structure RNode (ι σ : Type) where
  clip_path : ClipPath ι σ
  has_primary_styles : Bool
  style_attr : Option (List Char)
  frame : CssBoxQ

/-- The document: the node tree (total, as the source indexes its slab
directly) and the fragment-identifier table behind `get_element_by_id`. -/
structure Dom (ι σ : Type) where
  nodes : ℕ → RNode ι σ
  ids : List (ι × ℕ)

/-- The geometry constructors the resolver dispatches into:
`box_path` is `clip_path_for_geometry_box` (render.rs lines 653-673) and
`shape_to_path` is `basic_shape_to_path` (render.rs lines 694-829), with
the same argument lists as the source's calls. -/
structure GeomOps (ι σ π : Type) where
  box_path : CssBoxQ → ShapeGeometryBox → π
  shape_to_path : CssBoxQ → σ → Rect → ℚ → Option π

/-- The painter state the resolver mutates: the per-frame
`clip_path_cache` (`HashMap<usize, Rc<BezPath>>`, modelled as an
association list where the newest binding shadows), the per-node
`set_cached_clip_path` writes, and `geom_builds`, an instrumentation
counter incremented exactly when a geometry constructor
(`clip_path_for_geometry_box` / `basic_shape_to_path`) is invoked. -/
structure PaintState (π : Type) where
  clip_path_cache : List (ℕ × π)
  cached_clip_path : List (ℕ × Option π)
  geom_builds : ℕ

/-- First-match association-list lookup (`HashMap::get` under
newest-first shadowing inserts). -/
def assoc_lookup {κ β : Type} [DecidableEq κ] (key : κ) : List (κ × β) → Option β
  | [] => Option.none
  | entry :: rest => if entry.1 = key then some entry.2 else assoc_lookup key rest

/-- Termination measure: how many entries of the identifier table point at
nodes not yet in the visited set. -/
def unvisited_count {ι σ : Type} (dom : Dom ι σ) (visited : List ℕ) : ℕ :=
  (dom.ids.map Prod.snd).countP (fun nid => decide (¬ nid ∈ visited))

mutual

/-- `clip_path_from_styles_inner` (render.rs lines 575-633).  The visited
set is passed downward only: the source inserts the node id on entry and
removes it before returning, so a callee sees exactly `node_id :: visited`
and the caller's set is unchanged — which the functional embedding
realizes by not returning the set. -/
def clip_path_from_styles_inner {ι σ π : Type} [DecidableEq ι]
    (dom : Dom ι σ) (geom : GeomOps ι σ π) (st : PaintState π)
    (visited : List ℕ) (node_id : ℕ) : Option π × PaintState π :=
  let node := dom.nodes node_id
  match assoc_lookup node_id st.clip_path_cache with
  | some cached =>
      (some cached,
       { st with cached_clip_path := (node_id, some cached) :: st.cached_clip_path })
  | Option.none =>
      if node_id ∈ visited then (Option.none, st)
      else
        let visited' := node_id :: visited
        let reference_rect := node.frame.border_box
        let shape_margin := resolve_shape_margin_for_node node.style_attr reference_rect
        let res : Option π × PaintState π :=
          match node.clip_path with
          | ClipPath.none => (Option.none, st)
          | ClipPath.url u => clip_path_from_url dom geom st visited' u
          | ClipPath.box geometry_box =>
              (some (geom.box_path node.frame geometry_box),
               { st with geom_builds := st.geom_builds + 1 })
          | ClipPath.shape s geometry_box =>
              let shape_reference_rect := reference_rect_for_geometry_box node.frame geometry_box
              (geom.shape_to_path node.frame s shape_reference_rect shape_margin,
               { st with geom_builds := st.geom_builds + 1 })
        match res with
        | (some p, st1) =>
            (some p,
             { st1 with
                cached_clip_path := (node_id, some p) :: st1.cached_clip_path
                clip_path_cache := (node_id, p) :: st1.clip_path_cache })
        | (Option.none, st1) =>
            (Option.none,
             { st1 with cached_clip_path := (node_id, Option.none) :: st1.cached_clip_path })
termination_by 2 * unvisited_count dom (node_id :: visited) + 1
decreasing_by
  omega

/-- `clip_path_from_url` (render.rs lines 635-651). -/
def clip_path_from_url {ι σ π : Type} [DecidableEq ι]
    (dom : Dom ι σ) (geom : GeomOps ι σ π) (st : PaintState π)
    (visited : List ℕ) (url : Option ι) : Option π × PaintState π :=
  match url with
  | Option.none => (Option.none, st)
  | some fragment =>
      match hl : assoc_lookup fragment dom.ids with
      | Option.none => (Option.none, st)
      | some referenced_id =>
          if hv : referenced_id ∈ visited then (Option.none, st)
          else
            let referenced_node := dom.nodes referenced_id
            if referenced_node.has_primary_styles then
              clip_path_from_styles_inner dom geom st visited referenced_id
            else (Option.none, st)
termination_by 2 * unvisited_count dom visited
decreasing_by
  have lookup_mem : ∀ (l : List (ι × ℕ)) (k : ι) (r : ℕ),
      assoc_lookup k l = some r → r ∈ l.map Prod.snd := by
    intro l
    induction l with
    | nil => intro k r h; simp [assoc_lookup] at h
    | cons e t ih =>
        intro k r h
        by_cases he : e.1 = k
        · simp [assoc_lookup, he] at h
          simp [← h]
        · simp [assoc_lookup, he] at h
          simpa using Or.inr (ih k r h)
  have hmem : referenced_id ∈ dom.ids.map Prod.snd := lookup_mem _ _ _ hl
  have hcount : unvisited_count dom (referenced_id :: visited) < unvisited_count dom visited := by
    unfold unvisited_count
    obtain ⟨l₁, l₂, hsplit⟩ := List.append_of_mem hmem
    rw [hsplit, List.countP_append, List.countP_append, List.countP_cons, List.countP_cons]
    have mono : ∀ (l : List ℕ),
        l.countP (fun nid => decide (¬ nid ∈ referenced_id :: visited))
          ≤ l.countP (fun nid => decide (¬ nid ∈ visited)) := by
      intro l
      apply List.countP_mono_left
      intro x _ hx
      simp only [decide_eq_true_eq, List.mem_cons, not_or] at hx ⊢
      exact hx.2
    have h1 := mono l₁
    have h2 := mono l₂
    have hq : ¬ (decide (referenced_id ∉ referenced_id :: visited) = true) := by simp
    have hp : decide (referenced_id ∉ visited) = true := by simpa using hv
    rw [if_neg hq, if_pos hp]
    omega
  omega

end

/-- Test fixture: a node whose `clip-path` is `url(#other)` (fragment
identifiers are modelled as numbers), with primary styles present, no
inline style attribute, and a degenerate frame. -/
def cycle_node (other : ℕ) : RNode ℕ Unit :=
  { clip_path := ClipPath.url (some other)
    has_primary_styles := true
    style_attr := Option.none
    frame := ⟨⟨0, 0, 0, 0⟩, ⟨0, 0, 0, 0⟩, ⟨0, 0, 0, 0⟩, ⟨0, 0, 0, 0⟩⟩ }

/-- Test fixture: a two-element document with a clip-path reference cycle:
element 0's clip-path is `url(#1)` and element 1's is `url(#0)`. -/
def cycle_dom : Dom ℕ Unit :=
  { nodes := fun n => if n = 0 then cycle_node 1 else cycle_node 0
    ids := [(0, 0), (1, 1)] }

/-- Test fixture: the painter state at the start of a paint pass — empty
cache, no per-node cached clip paths, no geometry builds. -/
def empty_paint_state (π : Type) : PaintState π :=
  ⟨[], [], 0⟩

/-- Test fixture: a trivial geometry interface over the unit contour type. -/
def trivial_geom : GeomOps ℕ Unit Unit :=
  ⟨fun _ _ => (), fun _ _ _ _ => some ()⟩

/-! ## Theorems -/

/-- C5: for every reference rectangle `R` and center `C` inside `R`, the
resolved `closest-side` shape radius equals the minimum of the four
distances from `C` to the edges of `R`, and the `farthest-side` radius
equals the maximum of those four distances. -/
theorem C5_closest_farthest_side (reference_rect : Rect) (center : Point) (axis : ℚ)
    (hx0 : reference_rect.x0 ≤ center.x) (hx1 : center.x ≤ reference_rect.x1)
    (hy0 : reference_rect.y0 ≤ center.y) (hy1 : center.y ≤ reference_rect.y1) :
    resolve_shape_radius ShapeRadius.closestSide center reference_rect axis
      = min (min (min (center.x - reference_rect.x0) (reference_rect.x1 - center.x))
          (center.y - reference_rect.y0)) (reference_rect.y1 - center.y)
    ∧ resolve_shape_radius ShapeRadius.farthestSide center reference_rect axis
      = max (max (max (center.x - reference_rect.x0) (reference_rect.x1 - center.x))
          (center.y - reference_rect.y0)) (reference_rect.y1 - center.y) := by
  constructor
  · show (WithTop.untop' 0 (min (min (min (min ⊤ _) _) _) _) : ℚ) = _
    rw [min_eq_right (le_top : ((center.x - reference_rect.x0 : ℚ) : WithTop ℚ) ≤ ⊤),
      ← WithTop.coe_min, ← WithTop.coe_min, ← WithTop.coe_min, WithTop.untop'_coe]
  · show max (max (max (max 0 (center.x - reference_rect.x0)) _) _) _ = _
    rw [max_eq_right (by linarith : (0 : ℚ) ≤ center.x - reference_rect.x0)]

/-- Witness for C5 at the spec's example: `R = [0,0,100,100]`, `C = (25,25)`
gives closest-side radius 25 and farthest-side radius 75. -/
theorem C5_closest_farthest_side_witness :
    resolve_shape_radius ShapeRadius.closestSide ⟨25, 25⟩ ⟨0, 0, 100, 100⟩ 100 = 25
    ∧ resolve_shape_radius ShapeRadius.farthestSide ⟨25, 25⟩ ⟨0, 0, 100, 100⟩ 100 = 75 := by
  have h := C5_closest_farthest_side ⟨0, 0, 100, 100⟩ ⟨25, 25⟩ 100
    (by norm_num) (by norm_num) (by norm_num) (by norm_num)
  refine ⟨h.1.trans ?_, h.2.trans ?_⟩ <;> norm_num

/-- C9: for every rect-type basic shape, after resolving the four edge
offsets and applying the shape-margin expansion, the bounds passed to the
path constructor are sorted: left ≤ right and top ≤ bottom, even when the
raw computed right edge lies before the left edge. -/
theorem C9_rect_bounds_sorted (rect : InsetRectShape) (reference_rect : Rect)
    (shape_margin : ℚ) :
    (basic_shape_rect_arm rect reference_rect shape_margin).x0
        ≤ (basic_shape_rect_arm rect reference_rect shape_margin).x1
    ∧ (basic_shape_rect_arm rect reference_rect shape_margin).y0
        ≤ (basic_shape_rect_arm rect reference_rect shape_margin).y1 := by
  exact ⟨min_le_max, min_le_max⟩

/-- C6: `expand_polygon_point` preserves the direction of `P` from `C` and
increases the distance `|P − C|` by exactly the margin when the margin is
positive and `P ≠ C`; a non-positive margin is a no-op, and a point
coincident with the center is a no-op for every margin. -/
theorem C6_expand_polygon_point_spec (point center : PointR) (margin : ℝ) :
    (0 < margin → point ≠ center →
      (∃ t : ℝ, 0 < t
        ∧ (expand_polygon_point point center margin).x - center.x = t * (point.x - center.x)
        ∧ (expand_polygon_point point center margin).y - center.y = t * (point.y - center.y))
      ∧ euclid_dist (expand_polygon_point point center margin) center
          = euclid_dist point center + margin)
    ∧ (margin ≤ 0 → expand_polygon_point point center margin = point)
    ∧ (point = center → expand_polygon_point point center margin = point) := by
  set dx := point.x - center.x with hdx
  set dy := point.y - center.y with hdy
  refine ⟨?_, ?_, ?_⟩
  · intro hm hpc
    have hne : ¬ (dx = 0 ∧ dy = 0) := by
      rintro ⟨h1, h2⟩
      exact hpc (PointR.ext (by rw [hdx] at h1; linarith) (by rw [hdy] at h2; linarith))
    have hpos : 0 < dx * dx + dy * dy := by
      rcases not_and_or.mp hne with h | h
      · have := mul_self_pos.mpr h
        have := mul_self_nonneg dy
        linarith
      · have := mul_self_pos.mpr h
        have := mul_self_nonneg dx
        linarith
    have hdist : 0 < Real.sqrt (dx * dx + dy * dy) := Real.sqrt_pos.mpr hpos
    set dist := Real.sqrt (dx * dx + dy * dy) with hdist_def
    have hscale : 0 < (dist + margin) / dist := div_pos (by linarith) hdist
    have heval : expand_polygon_point point center margin
        = ⟨center.x + dx * ((dist + margin) / dist), center.y + dy * ((dist + margin) / dist)⟩ := by
      rw [expand_polygon_point, if_neg (not_le.mpr hm)]
      simp only [← hdx, ← hdy, ← hdist_def, if_pos hdist]
    refine ⟨⟨(dist + margin) / dist, hscale, ?_, ?_⟩, ?_⟩
    · rw [heval]; ring
    · rw [heval]; ring
    · rw [heval, euclid_dist]
      have harg : (center.x + dx * ((dist + margin) / dist) - center.x)
            * (center.x + dx * ((dist + margin) / dist) - center.x)
          + (center.y + dy * ((dist + margin) / dist) - center.y)
            * (center.y + dy * ((dist + margin) / dist) - center.y)
          = ((dist + margin) / dist) ^ 2 * (dx * dx + dy * dy) := by ring
      rw [harg, Real.sqrt_mul (sq_nonneg _), Real.sqrt_sq (le_of_lt hscale), ← hdist_def]
      rw [div_mul_cancel₀ _ (ne_of_gt hdist)]
      have : euclid_dist point center = dist := by
        rw [euclid_dist, hdist_def, hdx, hdy]
      rw [this]
  · intro hm
    rw [expand_polygon_point, if_pos hm]
  · intro hpc
    rw [expand_polygon_point]
    by_cases hm : margin ≤ 0
    · rw [if_pos hm]
    · rw [if_neg hm]
      have hzero : point.x - center.x = 0 ∧ point.y - center.y = 0 := by
        rw [hpc]; exact ⟨sub_self _, sub_self _⟩
      simp only [hzero.1, hzero.2, mul_zero, add_zero, Real.sqrt_zero, lt_irrefl, if_neg,
        not_lt, le_refl]
      simp

/-- Witness for C6 at the spec's example: a point 10 units right of the
center with margin 5 ends up exactly 15 units (10 + 5) from the center. -/
theorem C6_expand_polygon_point_witness :
    euclid_dist (expand_polygon_point ⟨10, 0⟩ ⟨0, 0⟩ 5) ⟨0, 0⟩
      = euclid_dist ⟨10, 0⟩ ⟨0, 0⟩ + 5 := by
  have h := (C6_expand_polygon_point_spec ⟨10, 0⟩ ⟨0, 0⟩ 5).1 (by norm_num)
    (by intro hc; have := congrArg PointR.x hc; norm_num at this)
  exact h.2

/-- C7: shape-margin parsing: `"15px"` parses to 15; `"10%"` against a
reference rectangle of width 200 parses to 20; a parse that would yield a
negative value is clamped to 0 (`"-5px"` parses to 0, and every parsed
value is nonnegative); a string bearing no percentage / `px`-dimension /
number token yields no value; and the call site falls back to the CSS
default 0 whenever no declaration parses. -/
theorem C7_shape_margin_parsing :
    (∀ reference_rect : Rect,
        parse_shape_margin_value "15px".toList reference_rect = some 15)
    ∧ parse_shape_margin_value "10%".toList ⟨0, 0, 200, 100⟩ = some 20
    ∧ (∀ reference_rect : Rect,
        parse_shape_margin_value "-5px".toList reference_rect = some 0)
    ∧ (∀ (raw_value : List Char) (reference_rect : Rect),
        tokenize1 raw_value = Option.none ∨ tokenize1 raw_value = some Token.other →
        parse_shape_margin_value raw_value reference_rect = Option.none)
    ∧ (∀ (raw_value : List Char) (reference_rect : Rect) (margin : ℚ),
        parse_shape_margin_value raw_value reference_rect = some margin → 0 ≤ margin)
    ∧ (∀ (style_attr : Option (List Char)) (reference_rect : Rect),
        resolve_shape_margin_for_node style_attr reference_rect = 0
        ∨ ∃ (raw_value : List Char) (margin : ℚ),
            parse_shape_margin_value raw_value reference_rect = some margin
            ∧ resolve_shape_margin_for_node style_attr reference_rect = margin)
    ∧ resolve_shape_margin_for_node (some "shape-margin: bogus".toList) ⟨0, 0, 100, 50⟩ = 0 := by
  refine ⟨?_, ?_, ?_, ?_, ?_, ?_, ?_⟩
  · intro reference_rect
    with_unfolding_all rfl
  · with_unfolding_all rfl
  · intro reference_rect
    with_unfolding_all rfl
  · intro raw_value reference_rect htok
    rcases htok with h | h <;> simp [parse_shape_margin_value, h]
  · intro raw_value reference_rect margin h
    rw [parse_shape_margin_value] at h
    rcases htok : tokenize1 raw_value with _ | tok
    · rw [htok] at h; simp at h
    · rw [htok] at h
      cases tok with
      | percentage unit_value =>
          simp only [Option.map_some] at h
          rcases Option.some.inj h with rfl
          exact le_max_right _ _
      | dimension value unit =>
          by_cases hu : eq_ignore_ascii_case unit ['p', 'x'] = true
          · simp only [hu, if_true, Option.map_some] at h
            rcases Option.some.inj h with rfl
            exact le_max_right _ _
          · simp only [hu, if_false, Bool.not_eq_true] at h
            simp [eq_false_intro hu] at h
      | number value =>
          simp only [Option.map_some] at h
          rcases Option.some.inj h with rfl
          exact le_max_right _ _
      | other => simp at h
  · intro style_attr reference_rect
    rcases style_attr with _ | attr
    · exact Or.inl rfl
    · rw [resolve_shape_margin_for_node]
      rcases hfind : (split_on_char ';' attr).findSome? (fun decl =>
          match splitn2_colon decl with
          | (_, Option.none) => Option.none
          | (name, some value) =>
              if eq_ignore_ascii_case (trim_chars name)
                  ['s', 'h', 'a', 'p', 'e', '-', 'm', 'a', 'r', 'g', 'i', 'n'] then
                some (trim_chars value)
              else Option.none) with _ | raw_value
      · exact Or.inl rfl
      · rcases hparse : parse_shape_margin_value raw_value reference_rect with _ | margin
        · exact Or.inl (by simp [hparse, DEFAULT_SHAPE_MARGIN])
        · exact Or.inr ⟨raw_value, margin, hparse, by simp [hparse]⟩
  · with_unfolding_all rfl

/-- Witness for C7: the general conjuncts applied at the spec's concrete
examples — `"15px"` parses to 15 against a width-100 rectangle, and the
unparseable `"bogus"` yields no value. -/
theorem C7_shape_margin_parsing_witness :
    parse_shape_margin_value "15px".toList ⟨0, 0, 100, 50⟩ = some 15
    ∧ parse_shape_margin_value "bogus".toList ⟨0, 0, 100, 50⟩ = Option.none := by
  refine ⟨C7_shape_margin_parsing.1 _, ?_⟩
  exact C7_shape_margin_parsing.2.2.2.1 _ _ (Or.inr (by with_unfolding_all rfl))

/-- C8 counterexample: at border width 1/2 (alpha 1), the dotted edge is
drawn with dash length and gap 1 — `border_width.max(1.0)` — not the edge
width 1/2 the claim states. -/
theorem C8_dotted_dash_counterexample :
    draw_border_edge BorderStyle.dotted 1 (1 / 2) ()
      = some (DrawOp.strokeOp
          { width := 1 / 2, dash_pattern := [1, 1], dash_offset := 0,
            start_cap := Cap.round, end_cap := Cap.round } ())
    ∧ ((1 : ℚ) ≠ 1 / 2) := by
  constructor
  · rw [draw_border_edge, if_neg (by norm_num : ¬ (1 : ℚ) = 0)]
    simp only [if_pos rfl]
    norm_num [max_eq_left]
  · norm_num

/-- C8 as amended: for every edge with non-zero color alpha, a dotted
style draws a round-capped stroke whose dash length and gap both equal
`max (border width) 1` (the source floors the dot size at 1), and a dashed
style draws a butt-capped stroke whose dash length and gap both equal
3 × the border width. -/
theorem C8_dotted_dashed_stroke {π : Type} (alpha border_width : ℚ) (path : π)
    (halpha : alpha ≠ 0) :
    draw_border_edge BorderStyle.dotted alpha border_width path
      = some (DrawOp.strokeOp
          { width := border_width
            dash_pattern := [max border_width 1, max border_width 1]
            dash_offset := 0
            start_cap := Cap.round
            end_cap := Cap.round } path)
    ∧ draw_border_edge BorderStyle.dashed alpha border_width path
      = some (DrawOp.strokeOp
          { width := border_width
            dash_pattern := [border_width * 3, border_width * 3]
            dash_offset := 0
            start_cap := Cap.butt
            end_cap := Cap.butt } path) := by
  constructor <;> rw [draw_border_edge, if_neg halpha] <;> simp

/-- Witness for C8 (amended): a dotted and a dashed edge of width 2 with
alpha 1. -/
theorem C8_dotted_dashed_stroke_witness :
    draw_border_edge BorderStyle.dotted 1 2 ()
      = some (DrawOp.strokeOp
          { width := 2, dash_pattern := [max 2 1, max 2 1], dash_offset := 0,
            start_cap := Cap.round, end_cap := Cap.round } ())
    ∧ draw_border_edge BorderStyle.dashed 1 2 ()
      = some (DrawOp.strokeOp
          { width := 2, dash_pattern := [2 * 3, 2 * 3], dash_offset := 0,
            start_cap := Cap.butt, end_cap := Cap.butt } ()) :=
  C8_dotted_dashed_stroke 1 2 () (by norm_num)

/-- Shape of the builder state the path-builder invariant tracks: either
nothing has been emitted and the builder is unstarted, or the emitted path
opens with a `MoveTo` and the builder is started. -/
theorem ensure_path_started_shape (path : List PathEl) (has_started : Bool)
    (current : Point) (tail : List PathEl)
    (h : (path = [] ∧ has_started = false)
      ∨ ∃ p rest, path = PathEl.moveTo p :: rest ∧ has_started = true) :
    (∃ p rest, (ensure_path_started path has_started current).1 ++ tail
        = PathEl.moveTo p :: rest)
    ∧ (ensure_path_started path has_started current).2 = true := by
  rcases h with ⟨hp, hs⟩ | ⟨p, rest, hp, hs⟩
  · subst hp
    rw [ensure_path_started, hs]
    exact ⟨⟨current, tail, rfl⟩, rfl⟩
  · rw [ensure_path_started, hs]
    exact ⟨⟨p, rest ++ tail, by simp [hp]⟩, rfl⟩

/-- One command keeps the path-builder invariant and leaves the builder
started with a path that opens with a `MoveTo`. -/
theorem command_step_shape (arc_to_path : ArcToPath) (st : PathBuilderState)
    (cmd : ShapeCommand)
    (h : (st.path = [] ∧ st.has_started = false)
      ∨ ∃ p rest, st.path = PathEl.moveTo p :: rest ∧ st.has_started = true) :
    (∃ p rest, (command_step arc_to_path st cmd).path = PathEl.moveTo p :: rest)
    ∧ (command_step arc_to_path st cmd).has_started = true := by
  cases cmd with
  | move point =>
      refine ⟨?_, rfl⟩
      rcases h with ⟨hp, _⟩ | ⟨p, rest, hp, _⟩
      · exact ⟨resolve_endpoint_absolute point st.current_point, [],
          by simp [command_step, hp]⟩
      · exact ⟨p, rest ++ [PathEl.moveTo (resolve_endpoint_absolute point st.current_point)],
          by simp [command_step, hp]⟩
  | line point => exact ensure_path_started_shape _ _ _ _ h
  | hline by_to x => exact ensure_path_started_shape _ _ _ _ h
  | vline by_to y => exact ensure_path_started_shape _ _ _ _ h
  | arc point radii arc_sweep arc_size rotate => exact ensure_path_started_shape _ _ _ _ h
  | quadCurve point control1 => exact ensure_path_started_shape _ _ _ _ h
  | cubicCurve point control1 control2 => exact ensure_path_started_shape _ _ _ _ h
  | smoothQuad point => exact ensure_path_started_shape _ _ _ _ h
  | smoothCubic point control2 => exact ensure_path_started_shape _ _ _ _ h
  | close => exact ensure_path_started_shape _ _ _ _ h

/-- Folding the command loop from an invariant state over a nonempty
command list yields a path that opens with a `MoveTo`. -/
theorem commands_foldl_shape (arc_to_path : ArcToPath) (cmds : List ShapeCommand)
    (st : PathBuilderState)
    (h : (st.path = [] ∧ st.has_started = false)
      ∨ ∃ p rest, st.path = PathEl.moveTo p :: rest ∧ st.has_started = true)
    (hne : cmds ≠ []) :
    ∃ p rest, (cmds.foldl (command_step arc_to_path) st).path
      = PathEl.moveTo p :: rest := by
  induction cmds generalizing st with
  | nil => exact absurd rfl hne
  | cons c cs ih =>
      rw [List.foldl_cons]
      rcases eq_or_ne cs [] with rfl | hcs
      · exact (command_step_shape arc_to_path st c h).1
      · have hstep := command_step_shape arc_to_path st c h
        exact ih _ (Or.inr (by
          obtain ⟨⟨p, rest, hp⟩, hs⟩ := hstep
          exact ⟨p, rest, hp, hs⟩)) hcs

/-- C10: for every command sequence given to the path builder — including
sequences whose first command is a drawing command rather than a move —
the produced path begins with a `MoveTo`: a drawing command issued before
any move implicitly opens a subpath at the current point (initially the
origin), so the builder never emits a segment without an open subpath.
The theorem is parametric in kurbo's external `Arc::to_path` expansion. -/
theorem C10_path_begins_with_move (arc_to_path : ArcToPath)
    (cmds : List ShapeCommand) (hne : cmds ≠ []) :
    ∃ p rest, commands_to_bez_path arc_to_path cmds = PathEl.moveTo p :: rest := by
  rw [commands_to_bez_path]
  exact commands_foldl_shape arc_to_path cmds _ (Or.inl ⟨rfl, rfl⟩) hne

/-- Witness for C10: a sequence whose first command is a drawing command
(a line to (3,4)) produces `[MoveTo (0,0), LineTo (3,4)]` — the subpath is
implicitly opened at the origin. -/
theorem C10_path_begins_with_move_witness :
    commands_to_bez_path (fun _ _ _ _ _ _ => [])
        [ShapeCommand.line (CommandEndPoint.toPosition 3 4)]
      = [PathEl.moveTo ⟨0, 0⟩, PathEl.lineTo ⟨3, 4⟩]
    ∧ ∃ p rest, commands_to_bez_path (fun _ _ _ _ _ _ => [])
        [ShapeCommand.line (CommandEndPoint.toPosition 3 4)]
      = PathEl.moveTo p :: rest := by
  constructor
  · with_unfolding_all rfl
  · exact C10_path_begins_with_move (fun _ _ _ _ _ _ => [])
      [ShapeCommand.line (CommandEndPoint.toPosition 3 4)] (by simp)

/-- The source's `angle` of the unit x-vector with itself: zero. -/
theorem angle_e1_e1 : angle ⟨1, 0⟩ ⟨1, 0⟩ = 0 := by
  rw [angle, signum_f64]
  norm_num [Vec2R.length, Real.arccos_one]

/-- The source's `angle` from the unit x-vector to the unit y-vector:
`arccos 0 = π/2` with a positive cross product, hence `π/2` (radians). -/
theorem angle_e1_e2 : angle ⟨1, 0⟩ ⟨0, 1⟩ = Real.pi / 2 := by
  rw [angle, signum_f64]
  norm_num [Vec2R.length, Real.arccos_zero]

/-- Full evaluation of the arc converter on the quarter-circle input
start = (1,0), end = (0,1), rx = ry = 1, sweep = clockwise,
large-arc = false, rotation = 0: the derived center is (0,0) and the
start angle 0, but the sweep angle is `π/2 - 360` — the naive angle
`π/2` (radians, from `acos`) pushed through the source's normalization,
which subtracts 360 (degrees) because the sweep is clockwise and the
naive angle positive. -/
theorem quarter_arc_eval :
    stylo_to_kurbo_arc ⟨1, 0⟩ ⟨0, 1⟩ ⟨1, 1⟩ true false 0
      = ⟨⟨0, 0⟩, ⟨1, 1⟩, 0, Real.pi / 2 - 360, 0⟩ := by
  rw [stylo_to_kurbo_arc]
  simp only [zero_mul, Real.cos_zero, Real.sin_zero]
  norm_num
  constructor
  · exact angle_e1_e1
  · rw [angle_e1_e2, normalize_del_theta]
    have hpi : (0 : ℝ) < Real.pi / 2 := by positivity
    simp [hpi]

/-- C1: for the quarter-circle arc (start (1,0), end (0,1), rx = ry = 1,
sweep clockwise, large-arc false, rotation 0) the converter's center is
(0,0) as the claim states, but the returned sweep angle is `π/2 - 360`
(≈ −358.43), whose magnitude exceeds 350 — not ≈ 90 degrees (nor `π/2`
radians): the code subtracts 360 degrees from the radian-valued naive
angle, in the branch that per the SVG notes cited by the code's own doc
comment should not fire for a clockwise positive sweep. -/
theorem C1_quarter_circle_arc_eval :
    (stylo_to_kurbo_arc ⟨1, 0⟩ ⟨0, 1⟩ ⟨1, 1⟩ true false 0).center = ⟨0, 0⟩
    ∧ (stylo_to_kurbo_arc ⟨1, 0⟩ ⟨0, 1⟩ ⟨1, 1⟩ true false 0).sweep_angle
        = Real.pi / 2 - 360
    ∧ 350 < |(stylo_to_kurbo_arc ⟨1, 0⟩ ⟨0, 1⟩ ⟨1, 1⟩ true false 0).sweep_angle| := by
  refine ⟨by rw [quarter_arc_eval], by rw [quarter_arc_eval], ?_⟩
  rw [quarter_arc_eval]
  show (350 : ℝ) < |Real.pi / 2 - 360|
  have h4 : Real.pi ≤ 4 := Real.pi_le_four
  have h0 : 0 < Real.pi := Real.pi_pos
  rw [abs_of_neg (by linarith)]
  linarith

/-- C2: the code's sweep normalization diverges from the claimed (and
SVG-mandated) rule at a clockwise sweep with naive angle +90: the code
subtracts 360 (yielding −270) where the claim's rule leaves the angle
unchanged (90). -/
theorem C2_sweep_normalization_diverges :
    normalize_del_theta true 90 = -270
    ∧ spec_normalize_del_theta true 90 = 90
    ∧ normalize_del_theta true 90 ≠ spec_normalize_del_theta true 90 := by
  norm_num [normalize_del_theta, spec_normalize_del_theta]

/-- A failed clip-path resolution inserts nothing into the positive
cache: whenever `clip_path_from_styles_inner` returns no clip, the
`clip_path_cache` it returns is exactly the one it started from, across
the whole (mutually recursive) resolution.  Proved by the functional
induction of the resolver. -/
theorem clip_path_failure_leaves_cache {ι σ π : Type} [DecidableEq ι]
    (dom : Dom ι σ) (geom : GeomOps ι σ π) (st : PaintState π) :
    ∀ (visited : List ℕ) (node_id : ℕ),
      (clip_path_from_styles_inner dom geom st visited node_id).1 = Option.none →
      (clip_path_from_styles_inner dom geom st visited node_id).2.clip_path_cache
        = st.clip_path_cache := by
  have main := clip_path_from_styles_inner.induct dom geom st
    (fun visited node_id =>
      (clip_path_from_styles_inner dom geom st visited node_id).1 = Option.none →
      (clip_path_from_styles_inner dom geom st visited node_id).2.clip_path_cache
        = st.clip_path_cache)
    (fun visited u =>
      (clip_path_from_url dom geom st visited u).1 = Option.none →
      (clip_path_from_url dom geom st visited u).2.clip_path_cache
        = st.clip_path_cache)
  apply main
  case case1 =>
    intro visited node_id cached h hfail
    unfold clip_path_from_styles_inner at hfail
    simp [h] at hfail
  case case2 =>
    intro visited node_id h1 h2 hfail
    unfold clip_path_from_styles_inner
    simp [h1, h2]
  case case3 =>
    intro visited node_id node h1 h2 visited' reference_rect shape_margin res p st1 hres IH hfail
    clear hres
    unfold clip_path_from_styles_inner at hfail ⊢
    simp only [h1, if_neg h2] at hfail ⊢
    rcases hclip : (dom.nodes node_id).clip_path with _ | u | gb | ⟨s, gb⟩ <;>
      simp [hclip] at hfail ⊢
    · cases hurl : clip_path_from_url dom geom st (node_id :: visited) u with
      | mk rfst rsnd =>
          rw [hurl] at hfail
          cases rfst with
          | some q => simp at hfail
          | none =>
              have hcache := IH u
              rw [hurl] at hcache
              simpa using hcache rfl
    · cases hsp : geom.shape_to_path (dom.nodes node_id).frame s
          (reference_rect_for_geometry_box (dom.nodes node_id).frame gb)
          (resolve_shape_margin_for_node (dom.nodes node_id).style_attr
            (dom.nodes node_id).frame.border_box) with
      | none => simp
      | some q =>
          rw [hsp] at hfail
          simp at hfail
  case case4 =>
    intro visited node_id node h1 h2 visited' reference_rect shape_margin res st1 hres IH hfail
    clear hres
    unfold clip_path_from_styles_inner at hfail ⊢
    simp only [h1, if_neg h2] at hfail ⊢
    rcases hclip : (dom.nodes node_id).clip_path with _ | u | gb | ⟨s, gb⟩ <;>
      simp [hclip] at hfail ⊢
    · cases hurl : clip_path_from_url dom geom st (node_id :: visited) u with
      | mk rfst rsnd =>
          rw [hurl] at hfail
          cases rfst with
          | some q => simp at hfail
          | none =>
              have hcache := IH u
              rw [hurl] at hcache
              simpa using hcache rfl
    · cases hsp : geom.shape_to_path (dom.nodes node_id).frame s
          (reference_rect_for_geometry_box (dom.nodes node_id).frame gb)
          (resolve_shape_margin_for_node (dom.nodes node_id).style_attr
            (dom.nodes node_id).frame.border_box) with
      | none => simp
      | some q =>
          rw [hsp] at hfail
          simp at hfail
  case case5 =>
    intro visited hfail
    unfold clip_path_from_url
    rfl
  case case6 =>
    intro visited fragment h hfail
    unfold clip_path_from_url
    split
    · rfl
    · rename_i rid heq
      rw [h] at heq
      exact Option.noConfusion heq
  case case7 =>
    intro visited fragment referenced_id h hv hfail
    unfold clip_path_from_url
    split
    · rfl
    · rename_i rid heq
      rw [h] at heq
      cases Option.some.inj heq
      rw [dif_pos hv]
  case case8 =>
    intro visited fragment referenced_id h hnv node hstyles IH hfail
    have heval : clip_path_from_url dom geom st visited (some fragment)
        = clip_path_from_styles_inner dom geom st visited referenced_id := by
      unfold clip_path_from_url
      split
      · rename_i heq
        rw [h] at heq
        exact Option.noConfusion heq
      · rename_i rid heq
        rw [h] at heq
        cases Option.some.inj heq
        rw [dif_neg hnv, if_pos hstyles]
    rw [heval] at hfail ⊢
    exact IH hfail
  case case9 =>
    intro visited fragment referenced_id h hnv node hstyles hfail
    unfold clip_path_from_url
    split
    · rfl
    · rename_i rid heq
      rw [h] at heq
      cases Option.some.inj heq
      rw [dif_neg hnv, if_neg hstyles]

/-- A successful clip-path resolution leaves the resolved contour in the
cache under the element's id (so that the next resolution of the element
is a cache hit). -/
theorem clip_path_success_caches {ι σ π : Type} [DecidableEq ι]
    (dom : Dom ι σ) (geom : GeomOps ι σ π) (st : PaintState π)
    (visited : List ℕ) (node_id : ℕ) (p : π)
    (hsucc : (clip_path_from_styles_inner dom geom st visited node_id).1 = some p) :
    assoc_lookup node_id
        (clip_path_from_styles_inner dom geom st visited node_id).2.clip_path_cache
      = some p := by
  unfold clip_path_from_styles_inner at hsucc ⊢
  rcases hc : assoc_lookup node_id st.clip_path_cache with _ | cached <;>
    simp only [hc] at hsucc ⊢
  · by_cases hv : node_id ∈ visited
    · simp only [if_pos hv] at hsucc
      simp at hsucc
    · simp only [if_neg hv] at hsucc ⊢
      rcases hclip : (dom.nodes node_id).clip_path with _ | u | gb | ⟨s, gb⟩ <;>
        simp [hclip] at hsucc ⊢
      · cases hurl : clip_path_from_url dom geom st (node_id :: visited) u with
        | mk rfst rsnd =>
            rw [hurl] at hsucc
            cases rfst with
            | none => simp at hsucc
            | some q =>
                simp at hsucc
                simp [assoc_lookup, hsucc]
      · simp [assoc_lookup, hsucc]
      · cases hsp : geom.shape_to_path (dom.nodes node_id).frame s
            (reference_rect_for_geometry_box (dom.nodes node_id).frame gb)
            (resolve_shape_margin_for_node (dom.nodes node_id).style_attr
              (dom.nodes node_id).frame.border_box) with
        | none =>
            rw [hsp] at hsucc
            simp at hsucc
        | some q =>
            rw [hsp] at hsucc
            simp at hsucc
            simp [assoc_lookup, hsucc]
  · simp [hc, ← hsucc]

/-- C3: clip-path `url()` cycle safety.  The resolver is total — it is
defined by well-founded recursion on the number of identifier-table
entries outside the visited set, which is exactly the source's
cycle-guard argument — so every resolution, cyclic chains included,
terminates.  First part: a resolution that re-enters an element already
present in the active visited set (and not yet cached) yields "no clip"
and leaves the painter state untouched.  Second part: on the concrete
two-element cycle A→B→A, resolving A from an empty state terminates with
"no clip" and an empty cache. -/
theorem C3_url_cycle_terminates_no_clip :
    (∀ (ι σ π : Type) [DecidableEq ι] (dom : Dom ι σ) (geom : GeomOps ι σ π)
        (st : PaintState π) (visited : List ℕ) (node_id : ℕ),
        assoc_lookup node_id st.clip_path_cache = Option.none →
        node_id ∈ visited →
        clip_path_from_styles_inner dom geom st visited node_id = (Option.none, st))
    ∧ (∀ (π : Type) (geom : GeomOps ℕ Unit π),
        (clip_path_from_styles_inner cycle_dom geom (empty_paint_state π) [] 0).1
          = Option.none
        ∧ (clip_path_from_styles_inner cycle_dom geom
            (empty_paint_state π) [] 0).2.clip_path_cache = []) := by
  constructor
  · intro ι σ π _ dom geom st visited node_id h1 h2
    unfold clip_path_from_styles_inner
    simp [h1, h2]
  · intro π geom
    constructor <;>
      simp [clip_path_from_styles_inner, clip_path_from_url, cycle_dom, cycle_node,
        empty_paint_state, assoc_lookup]

/-- Witness for C3: re-entering element 5 (already in the visited set,
not cached) terminates that branch with no clip and an unchanged state. -/
theorem C3_url_cycle_terminates_no_clip_witness :
    clip_path_from_styles_inner cycle_dom trivial_geom (empty_paint_state Unit) [5] 5
      = (Option.none, empty_paint_state Unit) :=
  C3_url_cycle_terminates_no_clip.1 ℕ Unit Unit cycle_dom trivial_geom
    (empty_paint_state Unit) [5] 5 rfl (by simp)

/-- C4: clip-cache correctness within one paint pass.  (1) Once the cache
holds an entry for an element, resolving that element returns exactly the
cached contour and the state with only the per-node back-reference
updated — the cache and the geometry-construction counter (`geom_builds`,
counting invocations of the shape/box geometry builders) are untouched,
so the shape geometry is not recomputed.  (2) A failed resolution inserts
nothing into the positive cache.  (3) A successful resolution leaves the
produced contour in the cache under the element's id, making the next
resolution of that element a cache hit. -/
theorem C4_clip_cache_at_most_once {ι σ π : Type} [DecidableEq ι]
    (dom : Dom ι σ) (geom : GeomOps ι σ π) (st : PaintState π)
    (visited : List ℕ) (node_id : ℕ) :
    (∀ cached, assoc_lookup node_id st.clip_path_cache = some cached →
        clip_path_from_styles_inner dom geom st visited node_id
          = (some cached,
             { st with cached_clip_path := (node_id, some cached) :: st.cached_clip_path }))
    ∧ ((clip_path_from_styles_inner dom geom st visited node_id).1 = Option.none →
        (clip_path_from_styles_inner dom geom st visited node_id).2.clip_path_cache
          = st.clip_path_cache)
    ∧ (∀ p, (clip_path_from_styles_inner dom geom st visited node_id).1 = some p →
        assoc_lookup node_id
            (clip_path_from_styles_inner dom geom st visited node_id).2.clip_path_cache
          = some p) := by
  refine ⟨?_, clip_path_failure_leaves_cache dom geom st visited node_id,
    fun p hsucc => clip_path_success_caches dom geom st visited node_id p hsucc⟩
  intro cached h
  unfold clip_path_from_styles_inner
  simp [h]

/-- Witness for C4: with the cache already holding element 7's contour,
resolving element 7 returns that contour and only the back-reference
changes — the cache and the geometry-build counter stay as they were. -/
theorem C4_clip_cache_at_most_once_witness :
    clip_path_from_styles_inner cycle_dom trivial_geom ⟨[(7, ())], [], 0⟩ [] 7
      = (some (), ⟨[(7, ())], [(7, some ())], 0⟩) :=
  (C4_clip_cache_at_most_once cycle_dom trivial_geom ⟨[(7, ())], [], 0⟩ [] 7).1 ()
    (by simp [assoc_lookup])

end BlitzPaint
